import Mathlib

/-!
# Verification of the mart → nearest fire-station resolution service

Shallow embedding of `src/main_org.py`.  The source is a small FastAPI
service with one handler, `analyze_query`, which

1. extracts a mart name from free text (`extract_mart_name`: an AI call with
   a cascade of deterministic fallbacks),
2. looks the mart up in a parquet dataset (`ILIKE` substring match, first row),
3. finds the nearest fire station by a full scan ordered by `ST_Distance`,
4. reprojects both points (EPSG:5179 → EPSG:4326) and assembles a GeoJSON
   FeatureCollection plus a Korean summary string.

Pure, decidable Lean functions model each piece.  Python's `re` semantics for
the two concrete patterns in the source are embedded directly (leftmost match,
alternation in listed order, greedy quantifiers); both patterns are free of
effective backtracking, as argued in comments at the relevant definitions.
External effects (the ollama call, the DuckDB queries, pyproj) are modelled as
oracle inputs carried by an environment record, so every exception path of the
handler is a value of the model.
-/

namespace Main

/-- The cascade-stage tags of the spec's `ExtractionResult.source`, mapped
onto the code paths of `extract_mart_name`. -/
inductive Source where
  | AI
  | REGEX_FIELD
  | BRAND_PATTERN
  | KEYWORD
  | FIRST_TOKEN
  | NONE
deriving DecidableEq, Repr

/-- Outcome of the `ollama.chat` call at the top of `extract_mart_name`:
either the call (or reading `response['message']['content']`) raises, or it
yields a response text. -/
inductive AIOutcome where
  | raises (err : String)
  | returns (content : String)

/-- Python `\s` on the characters actually reachable here (ASCII whitespace;
the source's queries and prompts contain no exotic Unicode spaces). -/
def isPySpace (c : Char) : Bool :=
  c = ' ' || c = '\t' || c = '\n' || c = '\r' || c = Char.ofNat 11 || c = Char.ofNat 12

/-- The character class `[가-힣]` of the mart regex: precomposed Hangul
syllables U+AC00 .. U+D7A3. -/
def isHangul (c : Char) : Bool :=
  0xAC00 ≤ c.toNat && c.toNat ≤ 0xD7A3

/-- Substring containment, modelling Python's `kw in text`. -/
def containsSub (kw : List Char) : List Char → Bool
  | [] => kw.isEmpty
  | c :: cs => kw.isPrefixOf (c :: cs) || containsSub kw cs

/-- Python `text.split()`: split on runs of whitespace, dropping empty
pieces.  `acc` holds the (reversed) token currently being read. -/
def pySplitAux : List Char → List Char → List (List Char)
  | [], acc => if acc.isEmpty then [] else [acc.reverse]
  | c :: cs, acc =>
      if isPySpace c then
        if acc.isEmpty then pySplitAux cs [] else acc.reverse :: pySplitAux cs []
      else
        pySplitAux cs (c :: acc)

def pySplit (cs : List Char) : List (List Char) := pySplitAux cs []

/-- The brand alternation of the pattern
`(롯데마트|이마트|GS25|CU|세븐일레븐|홈플러스)\s*([가-힣]+)점?`
(lines 69 and 82 of the source), in the listed order. -/
def brandAlts : List String :=
  ["롯데마트", "이마트", "GS25", "CU", "세븐일레븐", "홈플러스"]

/-- One attempt of the mart pattern at a fixed position in the text.

Python's engine tries the alternation branches in listed order; then `\s*` is
greedy and, because `\s` and `[가-힣]` are disjoint, giving whitespace back
can never let `([가-힣]+)` match, so the maximal whitespace run is consumed;
`([가-힣]+)` greedily takes the maximal Hangul run (and must be non-empty);
finally `점?` can only ever match the empty string, since the greedy
`([가-힣]+)` has already consumed every following Hangul character — in
particular it has consumed any trailing `점`. -/
def brandAt (cs : List Char) (b : String) : Option (String × List Char) :=
  if b.data.isPrefixOf cs then
    let rest := (cs.drop b.data.length).dropWhile isPySpace
    let branch := rest.takeWhile isHangul
    if branch.isEmpty then none else some (b, branch)
  else none

def martPatternAt (cs : List Char) : Option (String × List Char) :=
  brandAlts.findSome? (brandAt cs)

/-- `re.search` with the mart pattern: the match at the leftmost position
where the whole pattern succeeds.  Returns (group 1, group 2). -/
def martPatternSearch : List Char → Option (String × List Char)
  | [] => none
  | c :: cs =>
      match martPatternAt (c :: cs) with
      | some r => some r
      | none => martPatternSearch cs

/-- One attempt, at a fixed position, of the field pattern
`"mart_name"\s*:\s*"([^"]+)"` (line 63 of the source).  `[^"]+` is greedy and
bounded by the next `"`; backtracking cannot help because every character it
could give back fails to match `"`.  Returns the captured group. -/
def fieldPatternAt (cs : List Char) : Option (List Char) :=
  let key := "\"mart_name\"".data
  if key.isPrefixOf cs then
    let r1 := (cs.drop key.length).dropWhile isPySpace
    match r1 with
    | ':' :: r2 =>
        let r3 := r2.dropWhile isPySpace
        match r3 with
        | '"' :: r4 =>
            let cap := r4.takeWhile (fun c => c ≠ '"')
            if cap.isEmpty then none
            else match r4.drop cap.length with
              | '"' :: _ => some cap
              | _ => none
        | _ => none
    | _ => none
  else none

/-- `re.search` with the `"mart_name"` field pattern over the AI response
text: leftmost full match. -/
def fieldPatternSearch : List Char → Option (List Char)
  | [] => none
  | c :: cs =>
      match fieldPatternAt (c :: cs) with
      | some r => some r
      | none => fieldPatternSearch cs

/-- Keyword list of the parse-failure fallback (line 75). -/
def innerKwList : List String := ["롯데마트", "이마트", "GS25", "CU", "세븐일레븐"]

/-- Keyword list of the AI-exception fallback (line 87); note `GS`, not
`GS25`, and no `세븐일레븐`. -/
def exceptKwList : List String := ["롯데마트", "이마트", "GS", "CU"]

/-! ## JSON values and `json.loads`

`extract_mart_name` first tries `json.loads(content)` and then
`plan.get('mart_name', '')`.  The parser below follows RFC-8259 JSON as
Python's `json` module accepts it by default (including the `NaN`,
`Infinity`, `-Infinity` constants).  Numbers are kept as their matched text:
the program never consumes a numeric value, only the shape of the parse and
the `mart_name` field. -/

/-- Parsed JSON values.  Object fields are kept in source order; duplicate
keys are resolved like a Python dict (last occurrence wins), see `jGet`. -/
inductive JVal where
  | null
  | bool (b : Bool)
  | num (text : String)
  | str (s : String)
  | arr (elems : List JVal)
  | obj (fields : List (String × JVal))

/-- JSON insignificant whitespace (space, tab, LF, CR). -/
def jskip (cs : List Char) : List Char :=
  cs.dropWhile fun c => c = ' ' || c = '\t' || c = '\n' || c = '\r'

def isHexDigit (c : Char) : Bool :=
  c.isDigit || ('a' ≤ c && c ≤ 'f') || ('A' ≤ c && c ≤ 'F')

def hexVal (c : Char) : Nat :=
  if c.isDigit then c.toNat - '0'.toNat
  else if 'a' ≤ c && c ≤ 'f' then c.toNat - 'a'.toNat + 10
  else c.toNat - 'A'.toNat + 10

/-- Body of a JSON string after the opening quote: returns the decoded
content and the remainder after the closing quote.  Unescaped control
characters are rejected (Python's default `strict=True`); the common escapes
and `\uXXXX` are decoded (surrogate pairs are not recombined — no input in
this development contains them). -/
def parseJStringAux : List Char → List Char → Option (List Char × List Char)
  | [], _ => none
  | '"' :: rest, acc => some (acc.reverse, rest)
  | '\\' :: '"' :: r, acc => parseJStringAux r ('"' :: acc)
  | '\\' :: '\\' :: r, acc => parseJStringAux r ('\\' :: acc)
  | '\\' :: '/' :: r, acc => parseJStringAux r ('/' :: acc)
  | '\\' :: 'b' :: r, acc => parseJStringAux r (Char.ofNat 8 :: acc)
  | '\\' :: 'f' :: r, acc => parseJStringAux r (Char.ofNat 12 :: acc)
  | '\\' :: 'n' :: r, acc => parseJStringAux r ('\n' :: acc)
  | '\\' :: 'r' :: r, acc => parseJStringAux r (Char.ofNat 13 :: acc)
  | '\\' :: 't' :: r, acc => parseJStringAux r ('\t' :: acc)
  | '\\' :: 'u' :: h1 :: h2 :: h3 :: h4 :: r, acc =>
      if isHexDigit h1 && isHexDigit h2 && isHexDigit h3 && isHexDigit h4 then
        let n := ((hexVal h1 * 16 + hexVal h2) * 16 + hexVal h3) * 16 + hexVal h4
        parseJStringAux r (Char.ofNat n :: acc)
      else none
  | '\\' :: _, _ => none
  | c :: r, acc => if c.toNat < 0x20 then none else parseJStringAux r (c :: acc)

def parseJString (cs : List Char) : Option (List Char × List Char) :=
  parseJStringAux cs []

/-- A JSON number per the grammar Python's `json` uses:
`-? (0 | [1-9][0-9]*) (\.[0-9]+)? ([eE][+-]?[0-9]+)?`.  Returns the matched
text and the remainder. -/
def parseJNumber (cs : List Char) : Option (List Char × List Char) :=
  let (sign, cs1) :=
    match cs with
    | '-' :: r => (['-'], r)
    | _ => (([] : List Char), cs)
  let intPart := cs1.takeWhile Char.isDigit
  let intPart := if intPart.head? = some '0' then ['0'] else intPart
  if intPart.isEmpty then none else
  let cs2 := cs1.drop intPart.length
  let (fracPart, cs3) :=
    match cs2 with
    | '.' :: r =>
        let ds := r.takeWhile Char.isDigit
        if ds.isEmpty then (([] : List Char), cs2)
        else ('.' :: ds, r.drop ds.length)
    | _ => (([] : List Char), cs2)
  let (expPart, cs4) :=
    match cs3 with
    | e :: r =>
        if e = 'e' || e = 'E' then
          let (es, r1) :=
            match r with
            | s :: r' => if s = '+' || s = '-' then ([e, s], r') else ([e], r)
            | [] => ([e], r)
          let ds := r1.takeWhile Char.isDigit
          if ds.isEmpty then (([] : List Char), cs3)
          else (es ++ ds, r1.drop ds.length)
        else (([] : List Char), cs3)
    | [] => (([] : List Char), cs3)
  some (sign ++ intPart ++ fracPart ++ expPart, cs4)

mutual

/-- A JSON value at the head of `cs` (leading whitespace already skipped).
`fuel` bounds the nesting depth; `jsonParse` supplies more fuel than any
input can use. -/
def parseJValue : Nat → List Char → Option (JVal × List Char)
  | 0, _ => none
  | fuel + 1, cs =>
      match cs with
      | '"' :: r =>
          match parseJString r with
          | some (s, rest) => some (.str (String.mk s), rest)
          | none => none
      | '\x7b' :: r =>
          match jskip r with
          | '\x7d' :: rest => some (.obj [], rest)
          | r1 => match parseJMembers fuel r1 [] with
                  | some (fs, rest) => some (.obj fs, rest)
                  | none => none
      | '[' :: r =>
          match jskip r with
          | ']' :: rest => some (.arr [], rest)
          | r1 => match parseJElems fuel r1 [] with
                  | some (es, rest) => some (.arr es, rest)
                  | none => none
      | 't' :: r =>
          if "rue".data.isPrefixOf r then some (.bool true, r.drop 3) else none
      | 'f' :: r =>
          if "alse".data.isPrefixOf r then some (.bool false, r.drop 4) else none
      | 'n' :: r =>
          if "ull".data.isPrefixOf r then some (.null, r.drop 3) else none
      | 'N' :: r =>
          if "aN".data.isPrefixOf r then some (.num "NaN", r.drop 2) else none
      | 'I' :: r =>
          if "nfinity".data.isPrefixOf r then some (.num "Infinity", r.drop 7) else none
      | '-' :: 'I' :: r =>
          if "nfinity".data.isPrefixOf r then some (.num "-Infinity", r.drop 7) else none
      | _ =>
          match parseJNumber cs with
          | some (t, rest) => some (.num (String.mk t), rest)
          | none => none

/-- Members of a JSON object after the opening brace (first key expected at
the head, whitespace skipped). -/
def parseJMembers : Nat → List Char → List (String × JVal) →
    Option (List (String × JVal) × List Char)
  | 0, _, _ => none
  | fuel + 1, cs, acc =>
      match cs with
      | '"' :: r =>
          match parseJString r with
          | some (k, r1) =>
              match jskip r1 with
              | ':' :: r2 =>
                  match parseJValue fuel (jskip r2) with
                  | some (v, r3) =>
                      match jskip r3 with
                      | ',' :: r4 =>
                          parseJMembers fuel (jskip r4) ((String.mk k, v) :: acc)
                      | '\x7d' :: r4 =>
                          some ((((String.mk k, v)) :: acc).reverse, r4)
                      | _ => none
                  | none => none
              | _ => none
          | none => none
      | _ => none

/-- Elements of a JSON array after the opening bracket. -/
def parseJElems : Nat → List Char → List JVal → Option (List JVal × List Char)
  | 0, _, _ => none
  | fuel + 1, cs, acc =>
      match parseJValue fuel cs with
      | some (v, r) =>
          match jskip r with
          | ',' :: r1 => parseJElems fuel (jskip r1) (v :: acc)
          | ']' :: r1 => some ((v :: acc).reverse, r1)
          | _ => none
      | none => none

end

/-- `json.loads`: parse one JSON document, demanding that only whitespace
remains.  The fuel exceeds any possible nesting depth of the input. -/
def jsonLoads (s : String) : Option JVal :=
  match parseJValue (s.length + 2) (jskip s.data) with
  | some (v, rest) => if (jskip rest).isEmpty then some v else none
  | none => none

/-- Python dict lookup for the assoc list of a parsed object: a dict built
from duplicate keys keeps the last occurrence, so look up in the reversed
field list. -/
def jGet (fields : List (String × JVal)) (key : String) : Option JVal :=
  fields.reverse.lookup key

/-! ## The candidate value returned by the AI stage

`return plan.get('mart_name', '')` returns the field's value unchanged — the
Python function is annotated `-> str` but not checked, so a non-string JSON
value flows out as that Python object.  Downstream the handler only (a) tests
the value's truthiness (`if not search_term`) and (b) interpolates it into
message/query strings with `str()`.  The model therefore carries the
candidate as a `String` whose *emptiness equals the Python value's
falsiness* and whose content is `str(value)` (the rendering of unreachable
container/number corner cases is approximate; no claim consumes it). -/

mutual

/-- `str(value)`-style rendering of a parsed JSON value, except that falsy
Python values (`None`, `False`, zero, empty containers, `""`) are rendered
as the empty string, matching how the handler tests the candidate. -/
def candidateOfJVal : JVal → String
  | .null => ""
  | .bool true => "True"
  | .bool false => ""
  | .num t =>
      if (t.data.takeWhile fun c => c ≠ 'e' ∧ c ≠ 'E').all
          (fun c => c = '0' || c = '-' || c = '+' || c = '.') then ""
      else t
  | .str s => s
  | .arr [] => ""
  | .arr (e :: es) => "[" ++ reprJList (e :: es) ++ "]"
  | .obj [] => ""
  | .obj (f :: fs) => "\x7b" ++ reprJObj (f :: fs) ++ "\x7d"

/-- `repr`-style rendering of a JSON value nested inside a container. -/
def reprJVal : JVal → String
  | .null => "None"
  | .bool true => "True"
  | .bool false => "False"
  | .num t => t
  | .str s => "'" ++ s ++ "'"
  | .arr es => "[" ++ reprJList es ++ "]"
  | .obj fs => "\x7b" ++ reprJObj fs ++ "\x7d"

def reprJList : List JVal → String
  | [] => ""
  | [v] => reprJVal v
  | v :: rest => reprJVal v ++ ", " ++ reprJList rest

def reprJObj : List (String × JVal) → String
  | [] => ""
  | [(k, v)] => "'" ++ k ++ "': " ++ reprJVal v
  | (k, v) :: rest => "'" ++ k ++ "': " ++ reprJVal v ++ ", " ++ reprJObj rest

end

/-! ## The extraction cascade `extract_mart_name` -/

/-- The fallback stages of the inner `except:` (lines 61-78 of the source),
reached when `json.loads` raises or when the parsed value is not a dict (so
that `plan.get` raises `AttributeError`, caught by the same bare `except`):
field regex over the AI response text, then mart pattern over the original
query, then the five-keyword scan, then the first whitespace token. -/
def fallbackInner (content text : String) : String × Source :=
  match fieldPatternSearch content.data with
  | some cap => (String.mk cap, Source.REGEX_FIELD)
  | none =>
      match martPatternSearch text.data with
      | some (b, br) => (b ++ " " ++ String.mk br, Source.BRAND_PATTERN)
      | none =>
          match innerKwList.find? (fun kw => containsSub kw.data text.data) with
          | some kw => (kw, Source.KEYWORD)
          | none =>
              match pySplit text.data with
              | [] => ("", Source.NONE)
              | t :: _ => (String.mk t, Source.FIRST_TOKEN)

/-- The fallback of the outer `except Exception` (lines 79-90), reached when
the ollama call itself raises: mart pattern over the original query, then the
four-keyword scan, then `return ''`.  There is no first-token stage on this
path. -/
def fallbackExcept (text : String) : String × Source :=
  match martPatternSearch text.data with
  | some (b, br) => (b ++ " " ++ String.mk br, Source.BRAND_PATTERN)
  | none =>
      match exceptKwList.find? (fun kw => containsSub kw.data text.data) with
      | some kw => (kw, Source.KEYWORD)
      | none => ("", Source.NONE)

/-- `extract_mart_name` (lines 30-90), with the outcome of the `ollama.chat`
call passed in as `ai` and the result paired with the spec's `source` tag
for the code path taken. -/
def extract_mart_name (ai : AIOutcome) (text : String) : String × Source :=
  match ai with
  | .raises _ => fallbackExcept text
  | .returns content =>
      match jsonLoads content with
      | some (.obj fields) =>
          match jGet fields "mart_name" with
          | some v => (candidateOfJVal v, Source.AI)
          | none => ("", Source.AI)
      | _ => fallbackInner content text

/-! ## Geometry, distance ordering, and the summary format

Coordinates are modelled as rationals (the idealisation of the binary
floats DuckDB and pyproj compute with). -/

/-- A point geometry in the datasets' projected CRS (EPSG:5179). -/
structure Point where
  x : ℚ
  y : ℚ
deriving DecidableEq, Repr

/-- The value of an `ST_AsText(geometry)` column: the WKT text of a point.
The model keeps the coordinates the text encodes rather than the rendered
characters; `ST_GeomFromText` recovers exactly them. -/
structure WKT where
  pt : Point
deriving DecidableEq, Repr

def ST_GeomFromText (w : WKT) : Point := w.pt

def ST_X (p : Point) : ℚ := p.x

def ST_Y (p : Point) : ℚ := p.y

/-- Squared planar Euclidean distance between two points. -/
def sqDist (a b : Point) : ℚ :=
  (a.x - b.x) ^ 2 + (a.y - b.y) ^ 2

/-- One row of the fire-station dataset as the nearest-neighbour query scans
it: a name and a point geometry. -/
structure FireRow where
  nam : String
  pt : Point
deriving DecidableEq, Repr

/-- The fire-station query (lines 127-137):
`SELECT ..., ST_Distance(geometry, ST_GeomFromText(?)) AS distance ...
ORDER BY distance ASC LIMIT 1` — i.e. the first row, in storage order, whose
distance to the reference point is minimal (DuckDB's sort is stable).  Since
`Real.sqrt` is strictly monotone on nonnegatives, comparing `ST_Distance`
values is the same as comparing squared distances, so the scan compares
`sqDist` and reports the squared distance; theorems relate it to `euclDist`. -/
def nnStep (ref : Point) (best : FireRow × ℚ) (row : FireRow) : FireRow × ℚ :=
  if sqDist row.pt ref < best.2 then (row, sqDist row.pt ref) else best

def nearestToSq (ref : Point) : List FireRow → Option (FireRow × ℚ)
  | [] => none
  | r :: rs => some (rs.foldl (nnStep ref) (r, sqDist r.pt ref))

/-- Round half to even on a rational: the rounding Python's float formatting
`:.0f` performs. -/
def roundHalfEven (q : ℚ) : ℤ :=
  let f := ⌊q⌋
  let r := q - f
  if r < 1 / 2 then f
  else if 1 / 2 < r then f + 1
  else if f % 2 = 0 then f else f + 1

/-- Python `f"{d:.0f}"`: round half to even to an integer and print it
(a negative value rounding to zero prints `-0`). -/
def pyFormatDot0f (d : ℚ) : String :=
  let n := roundHalfEven d
  if d < 0 ∧ n = 0 then "-0" else toString n

/-- The summary f-string of line 192. -/
def mkSummary (martName fireName : String) (d : ℚ) : String :=
  martName ++ "에서 가장 가까운 소방서는 " ++ fireName ++
    "입니다 (거리: " ++ pyFormatDot0f d ++ "m)"

/-- Modelled from the spec: the summary string as C5 reads it, with the
distance "rounded to the nearest whole unit with standard rounding"
(`round` in Mathlib, i.e. half away from the floor).  Compared against
`mkSummary`, which embeds the source's `:.0f` formatting. -/
def claimSummary (martName fireName : String) (d : ℚ) : String :=
  martName ++ "에서 가장 가까운 소방서는 " ++ fireName ++
    "입니다 (거리: " ++ toString (round d) ++ "m)"

/-! ## The request handler `analyze_query`

The handler's external effects are oracles in an environment record: the
outcome of the ollama call, of each DuckDB query, and of the pyproj
transform.  An `Except.error e` models that call raising an exception with
text `e`. -/

/-- The mart row as fetched by
`SELECT nam, ST_AsText(geometry) AS wkt, geometry ... WHERE nam ILIKE ?
LIMIT 1` (lines 109-118): the columns bound to `mart_name, mart_wkt,
mart_geom` at line 123.  In the source both `wkt` and `geom` are derived
from the single `geometry` column; the model keeps the fetched columns
separately so that the dependence of the response on each can be stated. -/
structure FetchedMart where
  nam : String
  wkt : WKT
  geom : Point
deriving DecidableEq, Repr

/-- The fire-station row as fetched by the nearest-neighbour query (lines
127-137): `nam, wkt, geometry, distance`; the source reads indices 0, 1
and 3. -/
structure FetchedFire where
  nam : String
  wkt : WKT
  geom : Point
  distance : ℚ
deriving DecidableEq, Repr

/-- Oracles for the handler's external calls.  `fireQ` receives the mart WKT
that the source binds into the query. -/
structure Env where
  ai : AIOutcome
  martQ : Except String (Option FetchedMart)
  fireQ : WKT → Except String (Option FetchedFire)
  transform : ℚ → ℚ → Except String (ℚ × ℚ)
  geojsonQ : Except String Unit

/-- One output feature of the GeoJSON SQL (lines 167-189): a point geometry
(in EPSG:4326) with the `display_name` and `type` properties. -/
structure Feature where
  display_name : String
  ftype : String
  coords : ℚ × ℚ
deriving DecidableEq, Repr

/-- The handler's return value: either the `{"answer_text": ...}` early-exit
object or the FeatureCollection (two features, then the `summary` field
added at line 192). -/
inductive Response where
  | answer (answer_text : String)
  | featureCollection (features : List Feature) (summary : String)
deriving DecidableEq, Repr

/-- The body of the handler's `try:` block (lines 100-194).  `.error e`
means an uncaught exception with text `e` escaping the body. -/
def handlerBody (env : Env) (text : String) : Except String Response :=
  let search_term := (extract_mart_name env.ai text).1
  if search_term = "" then
    .ok (.answer "마트 이름을 인식할 수 없습니다.")
  else
    match env.martQ with
    | .error e => .error e
    | .ok none =>
        .ok (.answer ("'" ++ search_term ++ "'을(를) 찾을 수 없습니다. 데이터를 확인해주세요."))
    | .ok (some mart) =>
        match env.fireQ mart.wkt with
        | .error e => .error e
        | .ok none => .ok (.answer "소방서 데이터를 찾을 수 없습니다.")
        | .ok (some fire) =>
            let mart_x := ST_X (ST_GeomFromText mart.wkt)
            let mart_y := ST_Y (ST_GeomFromText mart.wkt)
            match env.transform mart_x mart_y with
            | .error e => .error e
            | .ok (mart_lon, mart_lat) =>
                let fire_x := ST_X (ST_GeomFromText fire.wkt)
                let fire_y := ST_Y (ST_GeomFromText fire.wkt)
                match env.transform fire_x fire_y with
                | .error e => .error e
                | .ok (fire_lon, fire_lat) =>
                    match env.geojsonQ with
                    | .error e => .error e
                    | .ok _ =>
                        .ok (.featureCollection
                          [⟨mart.nam, "mart", (mart_lon, mart_lat)⟩,
                           ⟨fire.nam, "firestation", (fire_lon, fire_lat)⟩]
                          (mkSummary mart.nam fire.nam fire.distance))

/-- How a call of the handler ends: an exception propagating to the caller,
or a returned response. -/
inductive HandlerOutcome where
  | raised (err : String)
  | returned (resp : Response)
deriving DecidableEq, Repr

/-- Result of one request, together with whether the DuckDB connection the
handler acquired was closed. -/
structure RunResult where
  outcome : HandlerOutcome
  connClosed : Bool
deriving DecidableEq, Repr

/-- `analyze_query` (lines 96-202).  `conn = get_db()` runs before the
`try:` block, so its failure (modelled by `gdb = .error e`) propagates; once
it succeeds, the `except Exception` turns any body exception into an
`answer_text` response and the `finally:` closes the connection on every
path. -/
def analyze_query (gdb : Except String Unit) (env : Env) (text : String) : RunResult :=
  match gdb with
  | .error e => ⟨.raised e, false⟩
  | .ok _ =>
      match handlerBody env text with
      | .ok r => ⟨.returned r, true⟩
      | .error e => ⟨.returned (.answer ("오류 발생: " ++ e)), true⟩

/-- `env` with the `mart_geom` column of a successful mart fetch replaced by
`g` — the variation claim C9 quantifies over. -/
def withMartGeom (env : Env) (g : Point) : Env :=
  { env with
    martQ :=
      match env.martQ with
      | .error e => .error e
      | .ok none => .ok none
      | .ok (some m) => .ok (some { m with geom := g }) }

/-! ## Concrete sample inputs used by witnesses and counterexamples -/

/-- Sample reference point for the nearest-neighbour query. -/
def ref0 : Point := ⟨0, 0⟩

/-- Sample fire-station dataset: the second row is strictly nearer to
`ref0` than the first. -/
def rows0 : List FireRow := [⟨"A소방서", ⟨3, 4⟩⟩, ⟨"B소방서", ⟨1, 1⟩⟩]

/-- A transform oracle that succeeds and returns its input (the handler
model never interprets the transformed values). -/
def idTransform : ℚ → ℚ → Except String (ℚ × ℚ) := fun x y => .ok (x, y)

def sampleMart : FetchedMart := ⟨"마트A", ⟨⟨1, 2⟩⟩, ⟨1, 2⟩⟩

def sampleFire (d : ℚ) : FetchedFire := ⟨"소방서B", ⟨⟨4, 6⟩⟩, ⟨4, 6⟩, d⟩

/-- An environment in which every external call succeeds and the nearest
fire station is reported at distance `d`. -/
def sampleEnv (d : ℚ) : Env :=
  { ai := .raises "down"
    martQ := .ok (some sampleMart)
    fireQ := fun _ => .ok (some (sampleFire d))
    transform := idTransform
    geojsonQ := .ok () }

/-- An environment whose mart query raises. -/
def dbErrorEnv : Env :=
  { ai := .raises "down"
    martQ := .error "Unable to read parquet"
    fireQ := fun _ => .ok none
    transform := idTransform
    geojsonQ := .ok () }

/-! # Theorems

## Nearest-neighbour scan (claim C1) -/

theorem nnFold_snd (ref : Point) (rs : List FireRow) (b : FireRow × ℚ)
    (hb : b.2 = sqDist b.1.pt ref) :
    (rs.foldl (nnStep ref) b).2 = sqDist (rs.foldl (nnStep ref) b).1.pt ref := by
  induction rs generalizing b with
  | nil => simpa using hb
  | cons x t ih =>
      simp only [List.foldl_cons]
      apply ih
      unfold nnStep
      split
      · rfl
      · exact hb

theorem nnFold_le_init (ref : Point) (rs : List FireRow) (b : FireRow × ℚ) :
    (rs.foldl (nnStep ref) b).2 ≤ b.2 := by
  induction rs generalizing b with
  | nil => simp
  | cons x t ih =>
      simp only [List.foldl_cons]
      refine le_trans (ih _) ?_
      by_cases h : sqDist x.pt ref < b.2
      · simpa [nnStep, h] using h.le
      · simp [nnStep, h]

theorem nnFold_le_mem (ref : Point) (rs : List FireRow) (b : FireRow × ℚ) :
    ∀ x ∈ rs, (rs.foldl (nnStep ref) b).2 ≤ sqDist x.pt ref := by
  induction rs generalizing b with
  | nil => simp
  | cons y t ih =>
      intro x hx
      simp only [List.foldl_cons]
      rcases List.mem_cons.mp hx with h | h
      · subst h
        refine le_trans (nnFold_le_init ref t _) ?_
        by_cases hlt : sqDist x.pt ref < b.2
        · simp [nnStep, hlt]
        · simpa [nnStep, hlt] using le_of_not_lt hlt
      · exact ih _ x h

/-- The fold keeps the *first* row achieving the running minimum: either the
initial pair survives and the whole list is no nearer, or the result is some
row of the list, strictly nearer than the initial pair and than every row
before it. -/
theorem nnFold_first (ref : Point) (rs : List FireRow) (b : FireRow × ℚ) :
    (rs.foldl (nnStep ref) b = b ∧ ∀ x ∈ rs, b.2 ≤ sqDist x.pt ref) ∨
    (∃ (i : ℕ) (x : FireRow), rs[i]? = some x ∧
      rs.foldl (nnStep ref) b = (x, sqDist x.pt ref) ∧
      sqDist x.pt ref < b.2 ∧
      ∀ j : ℕ, j < i → ∀ y : FireRow, rs[j]? = some y →
        sqDist x.pt ref < sqDist y.pt ref) := by
  induction rs generalizing b with
  | nil => left; simp
  | cons z t ih =>
      simp only [List.foldl_cons]
      by_cases h : sqDist z.pt ref < b.2
      · have hz : nnStep ref b z = (z, sqDist z.pt ref) := by simp [nnStep, h]
        rw [hz]
        rcases ih (z, sqDist z.pt ref) with ⟨heq, _⟩ | ⟨i, x, hget, heq, hlt, hfirst⟩
        · right
          refine ⟨0, z, by simp, ?_, h, ?_⟩
          · rw [heq]
          · intro j hj
            exact absurd hj (Nat.not_lt_zero j)
        · right
          refine ⟨i + 1, x, by simpa using hget, heq, lt_trans hlt h, ?_⟩
          intro j hj y hy
          cases j with
          | zero =>
              simp only [List.getElem?_cons_zero, Option.some.injEq] at hy
              subst hy
              exact hlt
          | succ j' =>
              exact hfirst j' (by omega) y (by simpa using hy)
      · have hz : nnStep ref b z = b := by simp [nnStep, h]
        rw [hz]
        rcases ih b with ⟨heq, hall⟩ | ⟨i, x, hget, heq, hlt, hfirst⟩
        · left
          refine ⟨heq, ?_⟩
          intro x hx
          rcases List.mem_cons.mp hx with rfl | hx
          · exact le_of_not_lt h
          · exact hall x hx
        · right
          refine ⟨i + 1, x, by simpa using hget, heq, hlt, ?_⟩
          intro j hj y hy
          cases j with
          | zero =>
              simp only [List.getElem?_cons_zero, Option.some.injEq] at hy
              subst hy
              exact lt_of_lt_of_le hlt (le_of_not_lt h)
          | succ j' =>
              exact hfirst j' (by omega) y (by simpa using hy)

/-- C1 (confirmed).  For every reference point and non-empty fire-station
dataset, the `ORDER BY distance ASC LIMIT 1` scan returns a row of the
dataset together with its squared distance; its planar Euclidean distance
(the square root, i.e. the `ST_Distance` value in the dataset's projected
CRS) is ≤ the Euclidean distance of every row of the dataset; and the row is
the first one achieving the minimum in storage order (every strictly earlier
row is strictly farther). -/
theorem nearestTo_min (ref : Point) (rows : List FireRow) (hne : rows ≠ []) :
    ∃ (r : FireRow) (d2 : ℚ), nearestToSq ref rows = some (r, d2) ∧
      r ∈ rows ∧
      d2 = sqDist r.pt ref ∧
      (∀ r' ∈ rows,
        Real.sqrt ((sqDist r.pt ref : ℚ) : ℝ) ≤ Real.sqrt ((sqDist r'.pt ref : ℚ) : ℝ)) ∧
      (∃ i : ℕ, rows[i]? = some r ∧
        ∀ j : ℕ, j < i → ∀ y : FireRow, rows[j]? = some y →
          sqDist r.pt ref < sqDist y.pt ref) := by
  match rows with
  | [] => exact absurd rfl hne
  | z :: t =>
      have hsnd : (t.foldl (nnStep ref) (z, sqDist z.pt ref)).2
          = sqDist (t.foldl (nnStep ref) (z, sqDist z.pt ref)).1.pt ref :=
        nnFold_snd ref t _ rfl
      have hminQ : ∀ r' ∈ z :: t,
          (t.foldl (nnStep ref) (z, sqDist z.pt ref)).2 ≤ sqDist r'.pt ref := by
        intro r' hr'
        rcases List.mem_cons.mp hr' with rfl | hr'
        · exact nnFold_le_init ref t (r', sqDist r'.pt ref)
        · exact nnFold_le_mem ref t _ r' hr'
      refine ⟨(t.foldl (nnStep ref) (z, sqDist z.pt ref)).1,
              (t.foldl (nnStep ref) (z, sqDist z.pt ref)).2, by simp [nearestToSq], ?_,
              hsnd, ?_, ?_⟩
      · -- membership
        rcases nnFold_first ref t (z, sqDist z.pt ref) with
          ⟨heq, _⟩ | ⟨i, x, hget, heq, _, _⟩
        · rw [heq]
          exact List.mem_cons_self z t
        · rw [heq]
          exact List.mem_cons_of_mem z (List.getElem?_mem hget)
      · -- Euclidean minimality
        intro r' hr'
        refine Real.sqrt_le_sqrt ?_
        have h1 := hminQ r' hr'
        rw [hsnd] at h1
        exact_mod_cast h1
      · -- first index achieving the minimum
        rcases nnFold_first ref t (z, sqDist z.pt ref) with
          ⟨heq, hall⟩ | ⟨i, x, hget, heq, hlt, hfirst⟩
        · refine ⟨0, by simp [heq], ?_⟩
          intro j hj
          exact absurd hj (Nat.not_lt_zero j)
        · refine ⟨i + 1, by simp [heq, hget], ?_⟩
          intro j hj y hy
          cases j with
          | zero =>
              simp only [List.getElem?_cons_zero, Option.some.injEq] at hy
              subst hy
              rw [heq]
              exact hlt
          | succ j' =>
              have hy' : t[j']? = some y := by simpa using hy
              have := hfirst j' (by omega) y hy'
              rw [heq]
              exact this

/-- Witness for C1 at a concrete dataset: `rows0` is non-empty, and the scan
returns its second row, the strictly nearer one. -/
theorem nearestTo_min_witness :
    rows0 ≠ [] ∧
    (∃ (r : FireRow) (d2 : ℚ), nearestToSq ref0 rows0 = some (r, d2) ∧
      r ∈ rows0 ∧
      d2 = sqDist r.pt ref0 ∧
      (∀ r' ∈ rows0,
        Real.sqrt ((sqDist r.pt ref0 : ℚ) : ℝ) ≤ Real.sqrt ((sqDist r'.pt ref0 : ℚ) : ℝ)) ∧
      (∃ i : ℕ, rows0[i]? = some r ∧
        ∀ j : ℕ, j < i → ∀ y : FireRow, rows0[j]? = some y →
          sqDist r.pt ref0 < sqDist y.pt ref0)) :=
  ⟨by decide, nearestTo_min ref0 rows0 (by decide)⟩

/-! ## Non-emptiness of the fallback stages (claims C3, C4, C6) -/

theorem fieldPatternAt_ne_nil {cs cap : List Char} (h : fieldPatternAt cs = some cap) :
    cap ≠ [] := by
  simp only [fieldPatternAt] at h
  repeat' split at h
  any_goals exact Option.noConfusion h
  injection h with h'
  subst h'
  simp_all

theorem fieldPatternSearch_ne_nil :
    ∀ {cs cap : List Char}, fieldPatternSearch cs = some cap → cap ≠ [] := by
  intro cs
  induction cs with
  | nil => intro cap h; simp [fieldPatternSearch] at h
  | cons c cs ih =>
      intro cap h
      unfold fieldPatternSearch at h
      split at h
      · next heq => exact fieldPatternAt_ne_nil (by rw [heq]; exact congrArg some (by injection h))
      · exact ih h

theorem brandAt_ne_nil {cs : List Char} {a b : String} {br : List Char}
    (h : brandAt cs a = some (b, br)) : br ≠ [] := by
  simp only [brandAt] at h
  repeat' split at h
  any_goals exact Option.noConfusion h
  injection h with h'
  injection h' with h1 h2
  subst h2
  simp_all

theorem martPatternAt_ne_nil {cs : List Char} {b : String} {br : List Char}
    (h : martPatternAt cs = some (b, br)) : br ≠ [] := by
  obtain ⟨a, -, ha⟩ := List.exists_of_findSome?_eq_some h
  exact brandAt_ne_nil ha

theorem martPatternSearch_ne_nil :
    ∀ {cs : List Char} {b : String} {br : List Char},
      martPatternSearch cs = some (b, br) → br ≠ [] := by
  intro cs
  induction cs with
  | nil => intro b br h; simp [martPatternSearch] at h
  | cons c cs ih =>
      intro b br h
      unfold martPatternSearch at h
      split at h
      · next heq => exact martPatternAt_ne_nil (by rw [heq]; exact congrArg some (by injection h))
      · exact ih h

theorem pySplitAux_ne_nil :
    ∀ (cs acc : List Char), ∀ t ∈ pySplitAux cs acc, t ≠ [] := by
  intro cs
  induction cs with
  | nil =>
      intro acc t ht
      unfold pySplitAux at ht
      split at ht
      · simp at ht
      · next hacc =>
          simp only [List.mem_singleton] at ht
          subst ht
          simp_all
  | cons c cs ih =>
      intro acc t ht
      unfold pySplitAux at ht
      split at ht
      · split at ht
        · exact ih [] t ht
        · next hacc =>
            rcases List.mem_cons.mp ht with rfl | ht
            · simp_all
            · exact ih [] t ht
      · exact ih (c :: acc) t ht

theorem mk_ne_empty {cap : List Char} (h : cap ≠ []) : String.mk cap ≠ "" := by
  intro he
  apply h
  have hd : (String.mk cap).data = ("" : String).data := by rw [he]
  simpa using hd

theorem append_space_mk_ne_empty (b : String) (br : List Char) :
    b ++ " " ++ String.mk br ≠ "" := by
  intro h
  have hl := congrArg String.length h
  rw [String.length_append, String.length_append] at hl
  have h1 : (" " : String).length = 1 := rfl
  have h0 : ("" : String).length = 0 := rfl
  omega

theorem kw_mem_ne_empty {kws : List String} {p : String → Bool} {kw : String}
    (h : kws.find? p = some kw) (hall : ∀ k ∈ kws, k ≠ "") : kw ≠ "" :=
  hall kw (List.mem_of_find?_eq_some h)

/-- The parse-failure fallback returns an empty candidate only on its final
`return ''`-equivalent path (blank text), tagged `NONE`: the field regex
captures at least one character, the mart pattern result contains a space,
the keywords are non-empty literals, and every token of `text.split()` is
non-empty. -/
theorem fallbackInner_empty (content text : String)
    (h : (fallbackInner content text).1 = "") :
    (fallbackInner content text).2 = Source.NONE := by
  cases hf : fieldPatternSearch content.data with
  | some cap =>
      rw [show fallbackInner content text = (String.mk cap, Source.REGEX_FIELD) by
        simp [fallbackInner, hf]] at h
      exact absurd h (mk_ne_empty (fieldPatternSearch_ne_nil hf))
  | none =>
      cases hb : martPatternSearch text.data with
      | some p =>
          obtain ⟨b, br⟩ := p
          rw [show fallbackInner content text = (b ++ " " ++ String.mk br, Source.BRAND_PATTERN) by
            simp [fallbackInner, hf, hb]] at h
          exact absurd h (append_space_mk_ne_empty b br)
      | none =>
          cases hk : innerKwList.find? (fun kw => containsSub kw.data text.data) with
          | some kw =>
              rw [show fallbackInner content text = (kw, Source.KEYWORD) by
                simp [fallbackInner, hf, hb, hk]] at h
              refine absurd h (kw_mem_ne_empty hk ?_)
              intro k hkm
              fin_cases hkm <;> decide
          | none =>
              cases hs : pySplit text.data with
              | nil => simp [fallbackInner, hf, hb, hk, hs]
              | cons t ts =>
                  rw [show fallbackInner content text = (String.mk t, Source.FIRST_TOKEN) by
                    simp [fallbackInner, hf, hb, hk, hs]] at h
                  have htm : t ∈ pySplit text.data := by rw [hs]; exact List.mem_cons_self t ts
                  exact absurd h (mk_ne_empty (pySplitAux_ne_nil text.data [] t htm))

/-- The AI-exception fallback returns an empty candidate only on its final
`return ''` (line 90), tagged `NONE`. -/
theorem fallbackExcept_empty (text : String)
    (h : (fallbackExcept text).1 = "") :
    (fallbackExcept text).2 = Source.NONE := by
  cases hb : martPatternSearch text.data with
  | some p =>
      obtain ⟨b, br⟩ := p
      rw [show fallbackExcept text = (b ++ " " ++ String.mk br, Source.BRAND_PATTERN) by
        simp [fallbackExcept, hb]] at h
      exact absurd h (append_space_mk_ne_empty b br)
  | none =>
      cases hk : exceptKwList.find? (fun kw => containsSub kw.data text.data) with
      | some kw =>
          rw [show fallbackExcept text = (kw, Source.KEYWORD) by
            simp [fallbackExcept, hb, hk]] at h
          refine absurd h (kw_mem_ne_empty hk ?_)
          intro k hkm
          fin_cases hkm <;> decide
      | none => simp [fallbackExcept, hb, hk]

/-- C6 (corrected).  An empty candidate can come not only from the `NONE`
paths but also from the AI stage itself (`plan.get('mart_name', '')` with a
successfully parsed object lacking a non-empty `mart_name`); every other
stage yields a non-empty candidate. -/
theorem extract_empty_source (ai : AIOutcome) (text : String)
    (h : (extract_mart_name ai text).1 = "") :
    (extract_mart_name ai text).2 = Source.NONE ∨
    (extract_mart_name ai text).2 = Source.AI := by
  cases ai with
  | raises e =>
      left
      exact fallbackExcept_empty text h
  | returns content =>
      cases hj : jsonLoads content with
      | none =>
          left
          have heq : extract_mart_name (.returns content) text = fallbackInner content text := by
            simp [extract_mart_name, hj]
          rw [heq] at h ⊢
          exact fallbackInner_empty _ _ h
      | some v =>
          cases v with
          | obj fields =>
              right
              simp only [extract_mart_name, hj]
              cases jGet fields "mart_name" <;> simp
          | null =>
              left
              have heq : extract_mart_name (.returns content) text = fallbackInner content text := by
                simp [extract_mart_name, hj]
              rw [heq] at h ⊢
              exact fallbackInner_empty _ _ h
          | bool b =>
              left
              have heq : extract_mart_name (.returns content) text = fallbackInner content text := by
                simp [extract_mart_name, hj]
              rw [heq] at h ⊢
              exact fallbackInner_empty _ _ h
          | num t =>
              left
              have heq : extract_mart_name (.returns content) text = fallbackInner content text := by
                simp [extract_mart_name, hj]
              rw [heq] at h ⊢
              exact fallbackInner_empty _ _ h
          | str s =>
              left
              have heq : extract_mart_name (.returns content) text = fallbackInner content text := by
                simp [extract_mart_name, hj]
              rw [heq] at h ⊢
              exact fallbackInner_empty _ _ h
          | arr es =>
              left
              have heq : extract_mart_name (.returns content) text = fallbackInner content text := by
                simp [extract_mart_name, hj]
              rw [heq] at h ⊢
              exact fallbackInner_empty _ _ h

/-- Witness for C6's amended invariant at a concrete input: blank text with
the AI raising gives an empty candidate, and the invariant's conclusion
holds there. -/
theorem extract_empty_source_witness :
    (extract_mart_name (.raises "down") "").1 = "" ∧
    ((extract_mart_name (.raises "down") "").2 = Source.NONE ∨
      (extract_mart_name (.raises "down") "").2 = Source.AI) :=
  ⟨by decide, extract_empty_source (.raises "down") "" (by decide)⟩

/-- Counterexample to C6 as stated: a successful AI response whose JSON lacks
a non-empty `mart_name` makes `extract_mart_name` return an empty candidate
from the AI stage, not from the `NONE` fallback — even though the query text
itself contains a brand. -/
theorem extract_empty_from_AI_stage :
    extract_mart_name (.returns "\x7b\x7d") "롯데마트 서울역점" = ("", Source.AI) ∧
    extract_mart_name (.returns "\x7b\"mart_name\": \"\"\x7d") "롯데마트 서울역점" =
      ("", Source.AI) ∧
    Source.AI ≠ Source.NONE :=
  ⟨by decide, by decide, by decide⟩

/-! ## The brand-pattern stage does not strip the branch suffix (claim C3) -/

/-- C3 (code bug).  On the query `"롯데마트 서울역점"` the brand-pattern
stage captures the *whole* Hangul run `서울역점` — the greedy `([가-힣]+)`
consumes the trailing `점` and the optional `점?` matches the empty string —
so `extract_mart_name` returns `"롯데마트 서울역점"`, not the
`"롯데마트 서울역"` that the code's own comment (line 68) and system prompt
promise.  This holds on the AI-exception path and on the parse-failure path
alike, so AI reachability is irrelevant. -/
theorem brand_stage_keeps_suffix :
    martPatternSearch "롯데마트 서울역점".data = some ("롯데마트", "서울역점".data) ∧
    extract_mart_name (.raises "connection refused") "롯데마트 서울역점" =
      ("롯데마트 서울역점", Source.BRAND_PATTERN) ∧
    extract_mart_name (.returns "no json here") "롯데마트 서울역점" =
      ("롯데마트 서울역점", Source.BRAND_PATTERN) ∧
    "롯데마트 서울역점" ≠ "롯데마트 서울역" :=
  ⟨by decide, by decide, by decide, by decide⟩

/-! ## The AI-exception path has no first-token stage (claim C4) -/

/-- Counterexample to C4 as stated: on a non-blank query with no brand
pattern and no known brand, the AI-exception path returns the empty
candidate tagged `NONE` — not the first whitespace token `"스타벅스"`
tagged `FIRST_TOKEN` that the claim requires. -/
theorem except_path_counterexample :
    extract_mart_name (.raises "service unavailable") "스타벅스 강남점" =
      ("", Source.NONE) ∧
    pySplit "스타벅스 강남점".data = ["스타벅스".data, "강남점".data] ∧
    Source.NONE ≠ Source.FIRST_TOKEN ∧
    "" ≠ "스타벅스" :=
  ⟨by decide, by decide, by decide, by decide⟩

/-- C4 (amended).  When the AI call raises, the cascade applies only the
brand-pattern stage and the four-keyword stage to the original query text;
if neither matches, `extract_mart_name` returns the empty candidate with
source `NONE` even when the text is non-blank — the first-token stage exists
only on the parse-failure path after a successful AI call. -/
theorem except_path_no_first_token (e text' : String)
    (hb : martPatternSearch text'.data = none)
    (hkw : exceptKwList.find? (fun kw => containsSub kw.data text'.data) = none)
    (_hnb : pySplit text'.data ≠ []) :
    extract_mart_name (.raises e) text' = ("", Source.NONE) ∧
    (extract_mart_name (.raises e) text').2 ≠ Source.FIRST_TOKEN := by
  have h : extract_mart_name (.raises e) text' = ("", Source.NONE) := by
    show fallbackExcept text' = ("", Source.NONE)
    simp [fallbackExcept, hb, hkw]
  exact ⟨h, by rw [h]; decide⟩

/-- Witness for C4's amended behaviour at the concrete non-blank query. -/
theorem except_path_no_first_token_witness :
    martPatternSearch "스타벅스 강남점".data = none ∧
    exceptKwList.find? (fun kw => containsSub kw.data "스타벅스 강남점".data) = none ∧
    pySplit "스타벅스 강남점".data ≠ [] ∧
    (extract_mart_name (.raises "e") "스타벅스 강남점" = ("", Source.NONE) ∧
      (extract_mart_name (.raises "e") "스타벅스 강남점").2 ≠ Source.FIRST_TOKEN) :=
  ⟨by decide, by decide, by decide,
    except_path_no_first_token "e" "스타벅스 강남점" (by decide) (by decide) (by decide)⟩

/-! ## Rounding (claim C5) -/

/-- Away from exact half-integers, rounding half-to-even agrees with
`round`, Mathlib's round-to-nearest. -/
theorem roundHalfEven_eq_round (q : ℚ) (h : q - ⌊q⌋ ≠ 1 / 2) :
    roundHalfEven q = round q := by
  have hfl : (⌊q⌋ : ℚ) ≤ q := Int.floor_le q
  have hlt : q < ⌊q⌋ + 1 := Int.lt_floor_add_one q
  rw [round_eq]
  unfold roundHalfEven
  by_cases h1 : q - ⌊q⌋ < 1 / 2
  · rw [if_pos h1]
    symm
    rw [Int.floor_eq_iff]
    constructor
    · linarith
    · linarith
  · have h2 : 1 / 2 < q - ⌊q⌋ := lt_of_le_of_ne (le_of_not_lt h1) (Ne.symm h)
    rw [if_neg h1, if_pos h2]
    symm
    rw [Int.floor_eq_iff]
    constructor
    · push_cast
      linarith
    · push_cast
      linarith

/-- For a non-negative distance whose fractional part is not exactly `1/2`,
the `:.0f` formatting prints `round d`. -/
theorem pyFormatDot0f_eq_round (d : ℚ) (h0 : 0 ≤ d) (hh : d - ⌊d⌋ ≠ 1 / 2) :
    pyFormatDot0f d = toString (round d) := by
  have hc : ¬(d < 0 ∧ roundHalfEven d = 0) := by
    rintro ⟨hd, -⟩
    exact absurd hd (not_lt.mpr h0)
  simp only [pyFormatDot0f]
  rw [if_neg hc, roundHalfEven_eq_round d hh]

theorem mkSummary_eq_claimSummary (p f : String) (d : ℚ) (h0 : 0 ≤ d)
    (hh : d - ⌊d⌋ ≠ 1 / 2) :
    mkSummary p f d = claimSummary p f d := by
  unfold mkSummary claimSummary
  rw [pyFormatDot0f_eq_round d h0 hh]

/-! ## The handler's success path (claims C2, C5) -/

/-- When extraction yields a non-empty term and every external call
succeeds, the handler returns the two-feature collection with the summary,
and closes the connection. -/
theorem handler_success (env : Env) (text' : String) (m : FetchedMart) (f : FetchedFire)
    (mlon mlat flon flat : ℚ)
    (hx : (extract_mart_name env.ai text').1 ≠ "")
    (hm : env.martQ = .ok (some m))
    (hf : env.fireQ m.wkt = .ok (some f))
    (ht1 : env.transform (ST_X (ST_GeomFromText m.wkt)) (ST_Y (ST_GeomFromText m.wkt)) =
      .ok (mlon, mlat))
    (ht2 : env.transform (ST_X (ST_GeomFromText f.wkt)) (ST_Y (ST_GeomFromText f.wkt)) =
      .ok (flon, flat))
    (hg : env.geojsonQ = .ok ()) :
    analyze_query (.ok ()) env text' =
      ⟨.returned (.featureCollection
        [⟨m.nam, "mart", (mlon, mlat)⟩, ⟨f.nam, "firestation", (flon, flat)⟩]
        (mkSummary m.nam f.nam f.distance)), true⟩ := by
  simp only [analyze_query, handlerBody, if_neg hx, hm, hf, ht1, ht2, hg]

/-- C2 (amended).  Every successful resolution produces exactly two
features, the place-derived (mart) feature first and the facility
(fire-station) feature second, each carrying `display_name` and `type`
properties — but the `type` discriminators are the strings `"mart"` and
`"firestation"`, not `"place"` and `"facility"`. -/
theorem response_two_features (env : Env) (text' : String) (m : FetchedMart)
    (f : FetchedFire) (mlon mlat flon flat : ℚ)
    (hx : (extract_mart_name env.ai text').1 ≠ "")
    (hm : env.martQ = .ok (some m))
    (hf : env.fireQ m.wkt = .ok (some f))
    (ht1 : env.transform (ST_X (ST_GeomFromText m.wkt)) (ST_Y (ST_GeomFromText m.wkt)) =
      .ok (mlon, mlat))
    (ht2 : env.transform (ST_X (ST_GeomFromText f.wkt)) (ST_Y (ST_GeomFromText f.wkt)) =
      .ok (flon, flat))
    (hg : env.geojsonQ = .ok ()) :
    ∃ (fs : List Feature) (s : String),
      (analyze_query (.ok ()) env text').outcome = .returned (.featureCollection fs s) ∧
      fs.length = 2 ∧
      fs.map Feature.ftype = ["mart", "firestation"] ∧
      fs.map Feature.display_name = [m.nam, f.nam] := by
  have h := handler_success env text' m f mlon mlat flon flat hx hm hf ht1 ht2 hg
  exact ⟨[⟨m.nam, "mart", (mlon, mlat)⟩, ⟨f.nam, "firestation", (flon, flat)⟩],
    mkSummary m.nam f.nam f.distance, by rw [h], rfl, rfl, rfl⟩

/-- Witness for C2's amended shape at a concrete environment. -/
theorem response_two_features_witness :
    (extract_mart_name (sampleEnv 10).ai "롯데마트 서울역점").1 ≠ "" ∧
    (sampleEnv 10).martQ = .ok (some sampleMart) ∧
    (sampleEnv 10).fireQ sampleMart.wkt = .ok (some (sampleFire 10)) ∧
    (sampleEnv 10).transform (ST_X (ST_GeomFromText sampleMart.wkt))
      (ST_Y (ST_GeomFromText sampleMart.wkt)) = .ok (1, 2) ∧
    (sampleEnv 10).transform (ST_X (ST_GeomFromText (sampleFire 10).wkt))
      (ST_Y (ST_GeomFromText (sampleFire 10).wkt)) = .ok (4, 6) ∧
    (sampleEnv 10).geojsonQ = .ok () ∧
    (∃ (fs : List Feature) (s : String),
      (analyze_query (.ok ()) (sampleEnv 10) "롯데마트 서울역점").outcome =
        .returned (.featureCollection fs s) ∧
      fs.length = 2 ∧
      fs.map Feature.ftype = ["mart", "firestation"] ∧
      fs.map Feature.display_name = [sampleMart.nam, (sampleFire 10).nam]) :=
  ⟨by decide, rfl, rfl, rfl, rfl, rfl,
    response_two_features (sampleEnv 10) "롯데마트 서울역점" sampleMart (sampleFire 10)
      1 2 4 6 (by decide) rfl rfl rfl rfl rfl⟩

/-- Counterexample to C2 as stated: on a successful resolution the first
feature's `type` discriminator is the string `"mart"`, not `"place"`, and
the second is `"firestation"`, not `"facility"`. -/
theorem feature_types_counterexample :
    (analyze_query (.ok ()) (sampleEnv 10) "롯데마트 서울역점").outcome =
      .returned (.featureCollection
        [⟨"마트A", "mart", (1, 2)⟩, ⟨"소방서B", "firestation", (4, 6)⟩]
        (mkSummary "마트A" "소방서B" 10)) ∧
    ("mart" : String) ≠ "place" ∧
    ("firestation" : String) ≠ "facility" :=
  ⟨(congrArg RunResult.outcome
      (handler_success (sampleEnv 10) "롯데마트 서울역점" sampleMart (sampleFire 10)
        1 2 4 6 (by decide) rfl rfl rfl rfl rfl)).trans rfl,
    by decide, by decide⟩

theorem floor_965_half : (⌊(965 : ℚ) / 2⌋ : ℤ) = 482 := by
  norm_num [Int.floor_eq_iff]

theorem roundHalfEven_965_half : roundHalfEven ((965 : ℚ) / 2) = 482 := by
  simp only [roundHalfEven, floor_965_half]
  norm_num

theorem pyFormatDot0f_965_half : pyFormatDot0f ((965 : ℚ) / 2) = "482" := by
  simp only [pyFormatDot0f, roundHalfEven_965_half]
  rw [if_neg (by norm_num)]
  decide

theorem round_965_half : round ((965 : ℚ) / 2) = 483 := by
  norm_num [round_eq, Int.floor_eq_iff]

/-- Counterexample to C5 as stated: at distance `482.5` the code's `:.0f`
formatting rounds half to even and prints `482m`, while rounding to the
nearest whole unit with standard (half-up) rounding gives `483m`; the
emitted summary differs from the claim's formula. -/
theorem summary_rounding_counterexample :
    (analyze_query (.ok ()) (sampleEnv (965 / 2)) "롯데마트 서울역점").outcome =
      .returned (.featureCollection
        [⟨"마트A", "mart", (1, 2)⟩, ⟨"소방서B", "firestation", (4, 6)⟩]
        (mkSummary "마트A" "소방서B" ((965 : ℚ) / 2))) ∧
    mkSummary "마트A" "소방서B" ((965 : ℚ) / 2) =
      "마트A에서 가장 가까운 소방서는 소방서B입니다 (거리: 482m)" ∧
    round ((965 : ℚ) / 2) = 483 ∧
    claimSummary "마트A" "소방서B" ((965 : ℚ) / 2) =
      "마트A에서 가장 가까운 소방서는 소방서B입니다 (거리: 483m)" ∧
    mkSummary "마트A" "소방서B" ((965 : ℚ) / 2) ≠
      claimSummary "마트A" "소방서B" ((965 : ℚ) / 2) := by
  have h1 : mkSummary "마트A" "소방서B" ((965 : ℚ) / 2) =
      "마트A에서 가장 가까운 소방서는 소방서B입니다 (거리: 482m)" := by
    unfold mkSummary
    rw [pyFormatDot0f_965_half]
    decide
  have h2 : claimSummary "마트A" "소방서B" ((965 : ℚ) / 2) =
      "마트A에서 가장 가까운 소방서는 소방서B입니다 (거리: 483m)" := by
    unfold claimSummary
    rw [round_965_half]
    decide
  refine ⟨?_, h1, round_965_half, h2, ?_⟩
  · exact (congrArg RunResult.outcome
      (handler_success (sampleEnv (965 / 2)) "롯데마트 서울역점" sampleMart
        (sampleFire (965 / 2)) 1 2 4 6 (by decide) rfl rfl rfl rfl rfl)).trans rfl
  · rw [h1, h2]
    decide

/-- C5 (amended).  On every successful resolution the summary equals
`"<place>에서 가장 가까운 소방서는 <facility>입니다 (거리: <N>m)"` where `N`
is the distance rounded half to even; away from exact half-integer
distances (such as every non-tie distance, including the claim's examples
482.4 → 482m and 482.6 → 483m) this is exactly the distance rounded to the
nearest whole unit. -/
theorem summary_format (env : Env) (text' : String) (m : FetchedMart)
    (f : FetchedFire) (mlon mlat flon flat : ℚ)
    (hx : (extract_mart_name env.ai text').1 ≠ "")
    (hm : env.martQ = .ok (some m))
    (hf : env.fireQ m.wkt = .ok (some f))
    (ht1 : env.transform (ST_X (ST_GeomFromText m.wkt)) (ST_Y (ST_GeomFromText m.wkt)) =
      .ok (mlon, mlat))
    (ht2 : env.transform (ST_X (ST_GeomFromText f.wkt)) (ST_Y (ST_GeomFromText f.wkt)) =
      .ok (flon, flat))
    (hg : env.geojsonQ = .ok ())
    (h0 : 0 ≤ f.distance)
    (hh : f.distance - ⌊f.distance⌋ ≠ 1 / 2) :
    (analyze_query (.ok ()) env text').outcome =
      .returned (.featureCollection
        [⟨m.nam, "mart", (mlon, mlat)⟩, ⟨f.nam, "firestation", (flon, flat)⟩]
        (claimSummary m.nam f.nam f.distance)) := by
  have h := handler_success env text' m f mlon mlat flon flat hx hm hf ht1 ht2 hg
  rw [mkSummary_eq_claimSummary m.nam f.nam f.distance h0 hh] at h
  rw [h]

theorem floor_4824_tenth : (⌊(4824 : ℚ) / 10⌋ : ℤ) = 482 := by
  norm_num [Int.floor_eq_iff]

theorem fract_4824_tenth : (4824 : ℚ) / 10 - ⌊(4824 : ℚ) / 10⌋ ≠ 1 / 2 := by
  rw [floor_4824_tenth]
  norm_num

/-- Witness for C5's amended summary at the concrete distance `482.4`. -/
theorem summary_format_witness :
    (extract_mart_name (sampleEnv (4824 / 10)).ai "롯데마트 서울역점").1 ≠ "" ∧
    (sampleEnv (4824 / 10)).martQ = .ok (some sampleMart) ∧
    (sampleEnv (4824 / 10)).fireQ sampleMart.wkt = .ok (some (sampleFire (4824 / 10))) ∧
    (sampleEnv (4824 / 10)).transform (ST_X (ST_GeomFromText sampleMart.wkt))
      (ST_Y (ST_GeomFromText sampleMart.wkt)) = .ok (1, 2) ∧
    (sampleEnv (4824 / 10)).transform (ST_X (ST_GeomFromText (sampleFire (4824 / 10)).wkt))
      (ST_Y (ST_GeomFromText (sampleFire (4824 / 10)).wkt)) = .ok (4, 6) ∧
    (sampleEnv (4824 / 10)).geojsonQ = .ok () ∧
    0 ≤ (sampleFire (4824 / 10)).distance ∧
    (sampleFire (4824 / 10)).distance - ⌊(sampleFire (4824 / 10)).distance⌋ ≠ 1 / 2 ∧
    (analyze_query (.ok ()) (sampleEnv (4824 / 10)) "롯데마트 서울역점").outcome =
      .returned (.featureCollection
        [⟨sampleMart.nam, "mart", (1, 2)⟩, ⟨(sampleFire (4824 / 10)).nam, "firestation", (4, 6)⟩]
        (claimSummary sampleMart.nam (sampleFire (4824 / 10)).nam
          (sampleFire (4824 / 10)).distance)) :=
  ⟨by decide, rfl, rfl, rfl, rfl, rfl, by norm_num [sampleFire],
    by simp only [sampleFire]; exact fract_4824_tenth,
    summary_format (sampleEnv (4824 / 10)) "롯데마트 서울역점" sampleMart
      (sampleFire (4824 / 10)) 1 2 4 6 (by decide) rfl rfl rfl rfl rfl
      (by norm_num [sampleFire]) (by simp only [sampleFire]; exact fract_4824_tenth)⟩

/-! ## Error handling and resource scope (claims C7, C8, C9, C10) -/

/-- C7 (confirmed).  Any exception escaping the body of the `try:` block —
the spatial lookups, the coordinate transforms, or the GeoJSON assembly —
is caught by the `except Exception` clause and converted into a returned
`answer_text` response `"오류 발생: <error text>"`; it never propagates to
the caller, and the connection is still closed. -/
theorem internal_error_envelope (env : Env) (text' : String) (e : String)
    (h : handlerBody env text' = .error e) :
    analyze_query (.ok ()) env text' =
      ⟨.returned (.answer ("오류 발생: " ++ e)), true⟩ := by
  simp only [analyze_query, h]

/-- Witness for C7 at a concrete environment whose mart query raises. -/
theorem internal_error_envelope_witness :
    handlerBody dbErrorEnv "롯데마트 서울역점" = .error "Unable to read parquet" ∧
    analyze_query (.ok ()) dbErrorEnv "롯데마트 서울역점" =
      ⟨.returned (.answer ("오류 발생: " ++ "Unable to read parquet")), true⟩ :=
  ⟨rfl,
    internal_error_envelope dbErrorEnv "롯데마트 서울역점" "Unable to read parquet" rfl⟩

/-- C8 (confirmed).  Whenever `get_db()` hands the handler a connection, the
`finally:` clause closes it on every exit path — success, each early exit,
and internal error alike. -/
theorem conn_always_closed (env : Env) (text' : String) :
    (analyze_query (.ok ()) env text').connClosed = true := by
  unfold analyze_query
  cases handlerBody env text' <;> rfl

/-- C9 (confirmed).  The geometry object fetched as the mart row's third
column (`mart_geom`) is dead after its assignment to `mart_coords`: both
features' coordinates come from re-parsing the WKT text columns, so two
runs differing only in that fetched geometry value produce identical
results. -/
theorem mart_geom_noninterference (gdb : Except String Unit) (env : Env)
    (text' : String) (g : Point) :
    analyze_query gdb (withMartGeom env g) text' = analyze_query gdb env text' := by
  have hai : (withMartGeom env g).ai = env.ai := rfl
  have hb : handlerBody (withMartGeom env g) text' = handlerBody env text' := by
    unfold handlerBody withMartGeom
    cases hm : env.martQ with
    | error e => simp
    | ok o =>
        cases o with
        | none => simp
        | some m => simp
  unfold analyze_query
  cases gdb with
  | error e => rfl
  | ok u => rw [hb]

/-- C10 (confirmed).  `conn = get_db()` runs before the `try:` block: a
failure there propagates uncaught out of `analyze_query` (and the handler
never reaches its body), whereas once it succeeds every run returns a
response — all later failures are converted into the `answer_text`
envelope. -/
theorem getdb_failure_propagates :
    (∀ (e : String) (env : Env) (text' : String),
        analyze_query (.error e) env text' = ⟨.raised e, false⟩) ∧
    (∀ (env : Env) (text' : String), ∃ r : Response,
        analyze_query (.ok ()) env text' = ⟨.returned r, true⟩) := by
  constructor
  · intro e env text'
    rfl
  · intro env text'
    unfold analyze_query
    cases h : handlerBody env text' with
    | ok r => exact ⟨r, rfl⟩
    | error e => exact ⟨.answer ("오류 발생: " ++ e), rfl⟩

end Main
